import Mathlib

/-!
Verification development for the talking-cat animation/behavior orchestration
engine (src/script.js).  Each component that the claims touch is shallowly
embedded as executable Lean definitions translated from the JavaScript source,
and the claims are settled as theorems about those definitions.

Conventions used throughout:
* JavaScript numbers are modelled as `ℚ` (exact rational arithmetic) except in
  the procedural layer, where `Real.sin`/`Real.cos` force `ℝ`.
* Angles in the rotation controller are measured in units of π radians, so the
  JavaScript constants `Math.PI`, `-Math.PI / 2` and `Math.PI / 4` become
  `1`, `-1/2` and `1/4`.  This rescaling is a bijection on angles and keeps
  every definition computable.
* `Math.random()` draws are passed in explicitly as inputs.
* Promise/async control flow is modelled twice, at two abstraction levels that
  are each faithful to the lines they embed: a synchronous big-step state/trace
  interpreter for the `isExecuting` flag and queue protocol, and a denotational
  timing semantics for start/finish ordering of composite sub-actions.
-/

/-! ## QuaternionRotationController.rotateTo (src/script.js lines 108-134)

`normalizeAngle` is the inner `while` loop pair (lines 114-118), written in
units of π: `while (angle > Math.PI) angle -= Math.PI * 2` becomes
`if 1 < angle then normalizeAngle (angle - 2)`, and symmetrically for the
lower loop.  `limitedTargetAngle` is lines 120-130: normalize, then clamp to
the arc `[-Math.PI / 2, Math.PI / 4]`, i.e. `[-1/2, 1/4]` in π units. -/

def normalizeAngle (angle : ℚ) : ℚ :=
  if 1 < angle then normalizeAngle (angle - 2)
  else if angle < -1 then normalizeAngle (angle + 2)
  else angle
termination_by (⌊|angle|⌋).toNat
decreasing_by
  · rcases le_or_lt 2 angle with h2 | h2
    · have h0 : |angle - 2| = angle - 2 := abs_of_nonneg (by linarith)
      have h1 : |angle| = angle := abs_of_nonneg (by linarith)
      rw [h0, h1]
      have hf : (2 : ℤ) ≤ ⌊angle⌋ := by
        exact_mod_cast Int.le_floor.mpr (by exact_mod_cast h2)
      have hsub : ⌊angle - 2⌋ = ⌊angle⌋ - 2 := by
        have := Int.floor_sub_int angle (2 : ℤ)
        simpa using this
      rw [hsub]
      omega
    · have h0 : |angle - 2| = 2 - angle := by
        rw [abs_of_nonpos (by linarith)]; ring
      have h1 : |angle| = angle := abs_of_nonneg (by linarith)
      rw [h0, h1]
      have hlo : ⌊(2 : ℚ) - angle⌋ = 0 := by
        rw [Int.floor_eq_zero_iff, Set.mem_Ico]
        constructor <;> linarith
      have hhi : (1 : ℤ) ≤ ⌊angle⌋ := by
        exact_mod_cast Int.le_floor.mpr (by norm_num; linarith)
      rw [hlo]
      omega
  · rcases le_or_lt angle (-2) with h2 | h2
    · have h0 : |angle + 2| = -(angle + 2) := abs_of_nonpos (by linarith)
      have h1 : |angle| = -angle := abs_of_nonpos (by linarith)
      rw [h0, h1]
      have hf : (2 : ℤ) ≤ ⌊-angle⌋ := by
        exact_mod_cast Int.le_floor.mpr (by exact_mod_cast (by linarith : (2:ℚ) ≤ -angle))
      have hsub : ⌊-(angle + 2)⌋ = ⌊-angle⌋ - 2 := by
        have := Int.floor_sub_int (-angle) (2 : ℤ)
        rw [show -(angle + 2) = -angle - (2:ℤ) by push_cast; ring]
        simpa using this
      rw [hsub]
      omega
    · have h0 : |angle + 2| = angle + 2 := abs_of_nonneg (by linarith)
      have h1 : |angle| = -angle := abs_of_nonpos (by linarith)
      rw [h0, h1]
      have hlo : ⌊angle + 2⌋ = 0 := by
        rw [Int.floor_eq_zero_iff, Set.mem_Ico]
        constructor <;> linarith
      have hhi : (1 : ℤ) ≤ ⌊-angle⌋ := by
        exact_mod_cast Int.le_floor.mpr (by norm_num; linarith)
      rw [hlo]
      omega

/-- Lines 120-130 of src/script.js: the requested yaw is normalized and then
clamped to the arc `[minAngle, maxAngle] = [-π/2, π/4]` (here `[-1/2, 1/4]`
in π units). -/
def limitedTargetAngle (angle : ℚ) : ℚ :=
  let n := normalizeAngle angle
  if n < -(1/2) then -(1/2)
  else if 1/4 < n then 1/4
  else n

/-- Modelled from the spec's words (for the refinement comparison in C1 only):
normalization of an angle into the half-open interval `(-π, π]` — in π units,
the unique representative of `angle` modulo `2` lying in `(-1, 1]`. -/
def specNormalizeAngle (angle : ℚ) : ℚ :=
  angle - 2 * ⌈(angle - 1) / 2⌉

/-- Modelled from the spec's words (for the refinement comparison in C1 only):
first normalize into `(-π, π]`, then clamp to the arc `[-π/2, π/4]`. -/
def specLimitedTargetAngle (angle : ℚ) : ℚ :=
  let n := specNormalizeAngle angle
  if n < -(1/2) then -(1/2)
  else if 1/4 < n then 1/4
  else n

theorem specNormalizeAngle_mem (angle : ℚ) :
    -1 < specNormalizeAngle angle ∧ specNormalizeAngle angle ≤ 1 := by
  unfold specNormalizeAngle
  have h1 : ((angle - 1) / 2 : ℚ) ≤ (⌈(angle - 1) / 2⌉ : ℚ) := Int.le_ceil _
  have h2 : ((⌈(angle - 1) / 2⌉ : ℤ) : ℚ) < (angle - 1) / 2 + 1 := Int.ceil_lt_add_one _
  constructor <;> linarith

theorem normalizeAngle_mem (angle : ℚ) :
    -1 ≤ normalizeAngle angle ∧ normalizeAngle angle ≤ 1 := by
  induction angle using normalizeAngle.induct with
  | case1 a h ih => rw [normalizeAngle]; simp [h]; exact ih
  | case2 a h h2 ih =>
    rw [normalizeAngle]
    simp only [if_neg h, if_pos h2]
    exact ih
  | case3 a h h2 =>
    rw [normalizeAngle]
    simp only [if_neg h, if_neg h2]
    constructor <;> linarith [not_lt.mp h, not_lt.mp h2]

/-- **C1** (amended).  For every requested yaw angle (in units of π), the
normalized angle produced by `rotateTo`'s loop lies in the closed interval
`[-π, π]` (not the half-open `(-π, π]` the spec states: the loop leaves `-π`
fixed), and the achieved target yaw always lies within `[-90°, +45°]`, with
normalized values outside that arc clamped to the nearest bound (the clamp is
exactly `min (π/4) (max (-π/2) ·)` applied to the normalized angle). -/
theorem rotateTo_clamps_to_arc (angle : ℚ) :
    -1 ≤ normalizeAngle angle ∧ normalizeAngle angle ≤ 1 ∧
    -(1/2) ≤ limitedTargetAngle angle ∧ limitedTargetAngle angle ≤ 1/4 ∧
    limitedTargetAngle angle = min (1/4) (max (-(1/2)) (normalizeAngle angle)) := by
  obtain ⟨h1, h2⟩ := normalizeAngle_mem angle
  unfold limitedTargetAngle
  rcases lt_or_le (normalizeAngle angle) (-(1/2)) with hlt | hge
  · rw [if_pos hlt]
    refine ⟨h1, h2, le_refl _, by norm_num, ?_⟩
    rw [max_eq_left (le_of_lt hlt), min_eq_right (by norm_num)]
  · rw [if_neg (not_lt.mpr hge)]
    rcases lt_or_le (1/4 : ℚ) (normalizeAngle angle) with hgt | hle
    · rw [if_pos hgt]
      refine ⟨h1, h2, by norm_num, le_refl _, ?_⟩
      rw [max_eq_right hge, min_eq_left (le_of_lt hgt)]
    · rw [if_neg (not_lt.mpr hle)]
      exact ⟨h1, h2, hge, hle, by rw [max_eq_right hge, min_eq_right hle]⟩

/-- **C1** counterexample to the claim as stated.  At the requested yaw
`θ = -π` (i.e. `-1` in π units) the code's normalization loop leaves `-π`
fixed (so the normalized angle is `-π ∉ (-π, π]`) and the built target is
clamped to `-π/2`, whereas normalizing into `(-π, π]` as the claim describes
would give `+π` and hence the clamp `+π/4`.  The two pipelines disagree, so
the target orientation is not "built from θ first normalized into `(-π, π]`". -/
theorem rotateTo_spec_normalization_counterexample :
    normalizeAngle (-1) = -1 ∧
    limitedTargetAngle (-1) = -(1/2) ∧
    specNormalizeAngle (-1) = 1 ∧
    specLimitedTargetAngle (-1) = 1/4 ∧
    limitedTargetAngle (-1) ≠ specLimitedTargetAngle (-1) := by
  have hn : normalizeAngle (-1) = -1 := by
    rw [normalizeAngle]; norm_num
  have hs : specNormalizeAngle (-1) = 1 := by
    unfold specNormalizeAngle
    rw [show ((-1 : ℚ) - 1) / 2 = ((-1 : ℤ) : ℚ) by norm_num, Int.ceil_intCast]
    norm_num
  refine ⟨hn, ?_, hs, ?_, ?_⟩
  · unfold limitedTargetAngle
    rw [hn]; norm_num
  · unfold specLimitedTargetAngle
    rw [hs]; norm_num
  · unfold limitedTargetAngle specLimitedTargetAngle
    rw [hn, hs]; norm_num

/-! ## AnimationStateManager (src/script.js lines 3-103)

Clips are identified by name.  `animations` is the clip table (`knownClips`),
`activeAction` the currently active clip, `isTransitioning` the re-entrancy
guard, `pendingTimeouts` the timeout map cleared on an accepted transition.
`requests` is ghost state recording the clip name of every `playAction`
invocation (used to express "the idle clip was requested").  `warnings` in the
result records every `console.warn` the call performs. -/

structure AnimMgr where
  knownClips : List String
  activeAction : Option String
  isTransitioning : Bool
  pendingTimeouts : List String
  requests : List String
deriving DecidableEq, Repr

structure PlayResult where
  result : Option String
  mgr : AnimMgr
  warnings : List String
deriving DecidableEq, Repr

/-- `playAction(name, fadeDuration, loop)`, lines 13-65.  The guard order is
the source's: the `isTransitioning` early return (line 14, which logs
nothing), the unknown-clip warning return (lines 16-19), the already-active
no-op return (lines 21-23), and finally the accepted transition (which resets
state, clears the pending timeouts and marks `isTransitioning`).  The
fade-duration and loop arguments only drive timer/mixer behavior that has no
further observable effect on this state, so they are unused here. -/
def playAction (m : AnimMgr) (name : String) (_fadeDuration : ℚ) (_loop : Bool) :
    PlayResult :=
  let m0 : AnimMgr := { m with requests := m.requests ++ [name] }
  if m0.isTransitioning then { result := none, mgr := m0, warnings := [] }
  else if ¬ (name ∈ m0.knownClips) then
    { result := none, mgr := m0, warnings := ["Animation not found: " ++ name] }
  else if m0.activeAction = some name then
    { result := some name, mgr := m0, warnings := [] }
  else
    { result := some name,
      mgr := { m0 with activeAction := some name, isTransitioning := true,
                       pendingTimeouts := [] },
      warnings := [] }

/-- `fadeToIdle(fadeDuration)`, lines 67-77: if the idle clip exists, request
it via `playAction`; otherwise return null without any call. -/
def fadeToIdle (m : AnimMgr) (fadeDuration : ℚ) : PlayResult :=
  if "idle" ∈ m.knownClips then playAction m "idle" fadeDuration true
  else { result := none, mgr := m, warnings := [] }

/-- **C6** (amended).  A `play` call made while a cross-fade transition is in
progress is rejected: it returns null, changes nothing (the active action,
the transition flag, the pending timeouts and the clip table are untouched,
and nothing is queued — the only trace is the ghost request log), and — unlike
the claim's wording — logs no warning: the `isTransitioning` early return at
line 14 precedes the warning-logging unknown-clip branch. -/
theorem playAction_rejects_during_transition (m : AnimMgr) (name : String)
    (fd : ℚ) (lp : Bool) (h : m.isTransitioning = true) :
    (playAction m name fd lp).result = none ∧
    (playAction m name fd lp).mgr.activeAction = m.activeAction ∧
    (playAction m name fd lp).mgr.isTransitioning = true ∧
    (playAction m name fd lp).mgr.pendingTimeouts = m.pendingTimeouts ∧
    (playAction m name fd lp).mgr.knownClips = m.knownClips ∧
    (playAction m name fd lp).warnings = [] := by
  simp [playAction, h]

/-- Witness for `playAction_rejects_during_transition` at a concrete manager
state (transition in progress, active clip "idle", request for "walk"). -/
theorem playAction_rejects_during_transition_witness :
    (playAction ⟨["idle", "walk"], some "idle", true, [], []⟩ "walk" (1/2) true).result
      = none ∧
    (playAction ⟨["idle", "walk"], some "idle", true, [], []⟩ "walk" (1/2) true).warnings
      = [] :=
  ⟨(playAction_rejects_during_transition ⟨["idle", "walk"], some "idle", true, [], []⟩
      "walk" (1/2) true rfl).1,
   (playAction_rejects_during_transition ⟨["idle", "walk"], some "idle", true, [], []⟩
      "walk" (1/2) true rfl).2.2.2.2.2⟩

/-- **C6** counterexample to the claim as stated.  The claim says every `play`
call made during an active transition "returns null, logs a warning".  At this
concrete input (transition in progress, known clip "walk" requested) the call
does return null but logs no warning at all: the early return at line 14 emits
nothing, and the `console.warn` at line 17 is reached only for unknown clip
names when no transition is in progress. -/
theorem playAction_transition_warning_counterexample :
    (playAction ⟨["idle", "walk"], some "idle", true, [], []⟩ "walk" (1/2) true).result
      = none ∧
    ¬ ((playAction ⟨["idle", "walk"], some "idle", true, [], []⟩ "walk" (1/2) true).warnings
        ≠ []) := by
  constructor
  · rfl
  · simp [playAction]

/-- **C9** (amended).  When no transition is in progress and the requested
clip is known and already active, `play` is a no-op returning the current
active action: nothing observable changes.  The "no transition in progress"
hypothesis is forced by the counterexample below: the `isTransitioning` guard
at line 14 precedes the already-active check at line 21. -/
theorem playAction_same_clip_noop (m : AnimMgr) (name : String) (fd : ℚ)
    (lp : Bool) (h : m.isTransitioning = false) (hk : name ∈ m.knownClips)
    (ha : m.activeAction = some name) :
    (playAction m name fd lp).result = some name ∧
    (playAction m name fd lp).result = m.activeAction ∧
    (playAction m name fd lp).mgr.activeAction = m.activeAction ∧
    (playAction m name fd lp).mgr.isTransitioning = false ∧
    (playAction m name fd lp).mgr.pendingTimeouts = m.pendingTimeouts ∧
    (playAction m name fd lp).warnings = [] := by
  simp [playAction, h, hk, ha]

/-- Witness for `playAction_same_clip_noop` at a concrete manager state. -/
theorem playAction_same_clip_noop_witness :
    (playAction ⟨["idle", "walk"], some "idle", false, [], []⟩ "idle" (1/2) true).result
      = some "idle" :=
  (playAction_same_clip_noop ⟨["idle", "walk"], some "idle", false, [], []⟩
      "idle" (1/2) true rfl (by decide) rfl).1

/-- **C9** counterexample to the claim as stated.  The claim asserts the
no-op-return-current-action behavior for *every* call whose requested clip is
already active.  At this concrete input the "idle" clip is already the active
one, yet because a cross-fade transition is in progress the call returns null
instead of the current active action (the line-14 guard wins). -/
theorem playAction_active_noop_counterexample :
    (⟨["idle", "walk"], some "idle", true, [], []⟩ : AnimMgr).activeAction
      = some "idle" ∧
    (playAction ⟨["idle", "walk"], some "idle", true, [], []⟩ "idle" (1/2) true).result
      = none ∧
    (playAction ⟨["idle", "walk"], some "idle", true, [], []⟩ "idle" (1/2) true).result
      ≠ some "idle" := by
  refine ⟨rfl, rfl, ?_⟩
  simp [playAction]

/-! ## ActionScheduler (src/script.js lines 456-564)

`ActionDescriptor` is the tagged `ActionDescriptor` variant: `locomotion` (clip name,
whether a `targetPosition` is present, optional `duration`), `composite`
(`parallel` flag plus sub-action list), `oneshot` (clip name, optional
`duration`).  Durations are `Option ℚ`; the JS `action.duration || d`
defaulting (absent *or zero* falls back to `d`) is `jsOr`. -/

inductive ActionDescriptor where
  | locomotion (animation : String) (hasTarget : Bool) (duration : Option ℚ)
  | composite (parallel : Bool) (actions : List ActionDescriptor)
  | oneshot (animation : String) (duration : Option ℚ)

/-- JavaScript `x || dflt` on an optional number: absent or `0` gives the
default. -/
def jsOr (d : Option ℚ) (dflt : ℚ) : ℚ :=
  match d with
  | none => dflt
  | some x => if x = 0 then dflt else x

/-- The scheduler's own state: the `isExecuting` flag and the FIFO
`actionQueue` (lines 457-461). -/
structure Sched where
  isExecuting : Bool
  actionQueue : List ActionDescriptor

/-- `scheduleAction(actionDescriptor)`, lines 463-469: enqueue if busy,
otherwise begin executing immediately.  The second component reports which
descriptor (if any) begins executing as a result of the call;
`executeAction`'s entry effect is setting `isExecuting` (line 472). -/
def scheduleAction (s : Sched) (d : ActionDescriptor) : Sched × Option ActionDescriptor :=
  if s.isExecuting then
    ({ s with actionQueue := s.actionQueue ++ [d] }, none)
  else
    ({ s with isExecuting := true }, some d)

/-- The `finally` block of `executeAction` (lines 487-490) followed by
`processQueue` (lines 552-557): clear the flag, then, if the queue is
non-empty, shift its head and begin executing it (setting the flag again).
The second component is the descriptor that begins executing next. -/
def finishCurrent (s : Sched) : Sched × Option ActionDescriptor :=
  match s.actionQueue with
  | [] => ({ s with isExecuting := false }, none)
  | d :: rest => ({ isExecuting := true, actionQueue := rest }, some d)

/-- The sequence of descriptors started by `n` successive action completions
(each completion runs the `finally` block and `processQueue`). -/
def drainStarts : Nat → Sched → List ActionDescriptor
  | 0, _ => []
  | n + 1, s =>
    match finishCurrent s with
    | (s2, some d) => d :: drainStarts n s2
    | (s2, none) => drainStarts n s2

theorem drainStarts_take (n : Nat) (s : Sched) :
    drainStarts n s = s.actionQueue.take n := by
  induction n generalizing s with
  | zero => simp [drainStarts]
  | succ n ih =>
    match s with
    | ⟨ex, []⟩ => simp [drainStarts, finishCurrent, ih]
    | ⟨ex, d :: rest⟩ => simp [drainStarts, finishCurrent, ih]

theorem foldl_scheduleAction_busy (ds : List ActionDescriptor) :
    ∀ s : Sched, s.isExecuting = true →
      (ds.foldl (fun st d => (scheduleAction st d).1) s).isExecuting = true ∧
      (ds.foldl (fun st d => (scheduleAction st d).1) s).actionQueue
        = s.actionQueue ++ ds := by
  induction ds with
  | nil => intro s h; simp [h]
  | cons d rest ih =>
    intro s h
    have hstep : (scheduleAction s d).1
        = { s with actionQueue := s.actionQueue ++ [d] } := by
      simp [scheduleAction, h]
    obtain ⟨h1, h2⟩ := ih { s with actionQueue := s.actionQueue ++ [d] } (by simp [h])
    simp only [List.foldl_cons, hstep]
    exact ⟨h1, by simp [h2]⟩

/-- **C5** (confirmed).  `schedule` begins executing the descriptor
immediately when the scheduler is idle and enqueues it when busy; descriptors
submitted while busy are appended in arrival order, and successive action
completions start exactly the queued descriptors in FIFO order (each start is
triggered by the previous action's completion via `processQueue`). -/
theorem scheduleAction_fifo (s : Sched) (d : ActionDescriptor) (ds : List ActionDescriptor) (n : Nat) :
    (s.isExecuting = false →
      scheduleAction s d = ({ s with isExecuting := true }, some d)) ∧
    (s.isExecuting = true →
      scheduleAction s d
        = ({ s with actionQueue := s.actionQueue ++ [d] }, none)) ∧
    (s.isExecuting = true →
      (ds.foldl (fun st d2 => (scheduleAction st d2).1) s).actionQueue
        = s.actionQueue ++ ds) ∧
    (s.isExecuting = true →
      drainStarts n (ds.foldl (fun st d2 => (scheduleAction st d2).1) s)
        = (s.actionQueue ++ ds).take n) := by
  refine ⟨fun h => by simp [scheduleAction, h], fun h => by simp [scheduleAction, h],
    fun h => (foldl_scheduleAction_busy ds s h).2, fun h => ?_⟩
  rw [drainStarts_take, (foldl_scheduleAction_busy ds s h).2]

/-- Witness for `scheduleAction_fifo`: a busy scheduler with one queued
descriptor receives two more; three completions start all three in FIFO
order. -/
theorem scheduleAction_fifo_witness :
    drainStarts 3
      ([ActionDescriptor.oneshot "b" none, ActionDescriptor.oneshot "c" none].foldl
        (fun st d2 => (scheduleAction st d2).1)
        ⟨true, [ActionDescriptor.oneshot "a" none]⟩)
      = [ActionDescriptor.oneshot "a" none, ActionDescriptor.oneshot "b" none, ActionDescriptor.oneshot "c" none] := by
  rw [(scheduleAction_fifo ⟨true, [ActionDescriptor.oneshot "a" none]⟩ (ActionDescriptor.oneshot "a" none)
    [ActionDescriptor.oneshot "b" none, ActionDescriptor.oneshot "c" none] 3).2.2.2 rfl]
  rfl

/-! ## SmoothMotionController flags and `cancelAll` (lines 160-209, 559-563) -/

/-- The Motion Controller's busy flags (lines 163-164).  A tween in flight is
represented by its flag being set. -/
structure Motion where
  isMoving : Bool
  isRotating : Bool
deriving DecidableEq, Repr

/-- The composite system state that `cancelAll` touches or could touch: the
scheduler, the motion controller's tween flags, and the animation manager. -/
structure CatSys where
  sched : Sched
  motion : Motion
  anim : AnimMgr

/-- `cancelAll()`, lines 559-563: `actionQueue.length = 0`,
`isExecuting = false`, then `animationManager.fadeToIdle()` (default fade
0.5).  It never touches the motion controller. -/
def cancelAll (c : CatSys) : CatSys :=
  { c with
    sched := { isExecuting := false, actionQueue := [] },
    anim := (fadeToIdle c.anim (1/2)).mgr }

/-- **C7** (confirmed).  `cancelAll` empties the pending queue (any queue,
in particular one of 3 descriptors, becomes length 0), clears the
busy/executing flag, requests the idle clip (when the idle clip exists, the
ghost request log gains an "idle" entry via `fadeToIdle`), and does not
forcibly interrupt a tween already in flight: the motion controller's
`isMoving`/`isRotating` flags are untouched, so it only prevents new stages
from starting. -/
theorem cancelAll_behavior (c : CatSys) :
    (cancelAll c).sched.actionQueue = [] ∧
    (cancelAll c).sched.actionQueue.length = 0 ∧
    (cancelAll c).sched.isExecuting = false ∧
    (cancelAll c).motion = c.motion ∧
    ("idle" ∈ c.anim.knownClips →
      (cancelAll c).anim.requests = c.anim.requests ++ ["idle"]) := by
  refine ⟨rfl, rfl, rfl, rfl, fun h => ?_⟩
  simp only [cancelAll, fadeToIdle, if_pos h, playAction]
  split <;> first | rfl | (split <;> rfl)

/-- Witness for `cancelAll_behavior`: a busy scheduler with 3 queued
descriptors and a rotation tween in flight; after `cancelAll` the queue is
empty, the flag is clear, the tween flag is still set and the idle clip was
requested. -/
theorem cancelAll_behavior_witness :
    (cancelAll ⟨⟨true, [ActionDescriptor.oneshot "a" none,
        ActionDescriptor.oneshot "b" none, ActionDescriptor.oneshot "c" none]⟩,
      ⟨false, true⟩, ⟨["idle", "walk"], some "walk", false, [], []⟩⟩).sched.actionQueue.length
      = 0 ∧
    (cancelAll ⟨⟨true, [ActionDescriptor.oneshot "a" none,
        ActionDescriptor.oneshot "b" none, ActionDescriptor.oneshot "c" none]⟩,
      ⟨false, true⟩, ⟨["idle", "walk"], some "walk", false, [], []⟩⟩).motion
      = ⟨false, true⟩ ∧
    (cancelAll ⟨⟨true, [ActionDescriptor.oneshot "a" none,
        ActionDescriptor.oneshot "b" none, ActionDescriptor.oneshot "c" none]⟩,
      ⟨false, true⟩, ⟨["idle", "walk"], some "walk", false, [], []⟩⟩).anim.requests
      = ["idle"] :=
  ⟨(cancelAll_behavior _).2.1,
   (cancelAll_behavior _).2.2.2.1,
   (cancelAll_behavior ⟨⟨true, [ActionDescriptor.oneshot "a" none,
        ActionDescriptor.oneshot "b" none, ActionDescriptor.oneshot "c" none]⟩,
      ⟨false, true⟩, ⟨["idle", "walk"], some "walk", false, [], []⟩⟩).2.2.2.2
     (by decide)⟩

/-! ## Synchronous execution trace of `executeAction` (lines 471-557)

`runSeq fuel s l` executes the actions of `l` in order, each through the full
`executeAction` protocol of lines 471-491: set `isExecuting` (line 472), run
the body (the `switch`: primitives emit a `run` event for their stage work;
a `composite` recursively executes each sub-action via `executeAction`,
lines 530-543 — under this synchronous abstraction every primitive stage
completes before anything else happens, so the `parallel` branch coincides
with the sequential one and the flag is ignored), then the `finally` block:
clear the flag (line 488) and `processQueue` (lines 552-557), which pops the
queue head and executes it through the same protocol.  `fuel` bounds the
recursion depth; every theorem supplies enough fuel, and running out emits a
`fuelOut` marker event. -/

inductive Ev where
  | flagSet
  | flagClear
  | run (animation : String)
  | fuelOut
deriving DecidableEq, Repr, BEq

def runSeq : Nat → Sched → List ActionDescriptor → Sched × List Ev
  | _, s, [] => (s, [])
  | 0, s, _ :: _ => (s, [Ev.fuelOut])
  | fuel + 1, s, a :: rest =>
    let s1 : Sched := { s with isExecuting := true }
    let p : Sched × List Ev :=
      match a with
      | ActionDescriptor.oneshot n _ => (s1, [Ev.run n])
      | ActionDescriptor.locomotion n _ _ => (s1, [Ev.run n])
      | ActionDescriptor.composite _ subs => runSeq fuel s1 subs
    let s3 : Sched := { p.1 with isExecuting := false }
    let q : Sched × List Ev :=
      match s3.actionQueue with
      | [] => (s3, [])
      | d :: ds => runSeq fuel { s3 with actionQueue := ds } [d]
    let r := runSeq fuel q.1 rest
    (r.1, (Ev.flagSet :: p.2) ++ (Ev.flagClear :: q.2) ++ r.2)

/-- The flag value after an event, given the value before it. -/
def flagAfter (b : Bool) : Ev → Bool
  | Ev.flagSet => true
  | Ev.flagClear => false
  | _ => b

/-- `heldAux b l = true` iff, processing `l` from flag value `b`, the flag is
`true` after every event except possibly the last one. -/
def heldAux (b : Bool) : List Ev → Bool
  | [] => true
  | [_] => true
  | e :: rest => flagAfter b e && heldAux (flagAfter b e) rest

/-- The claim's "the executing flag remains set for the entire duration of
the action": in the execution trace, the flag is `true` at every point
strictly inside the trace (only the very last event may clear it). -/
def execFlagSetThroughout (tr : List Ev) : Bool := heldAux false tr

/-- **C2** counterexample to the claim as stated.  A reachable configuration:
descriptor `D` sits queued while a sequential composite `[A, B]` begins
executing (both were scheduled while the scheduler was busy and `processQueue`
popped the composite first).  Executing the composite yields the trace below.
The `finally` of the *recursive* `executeAction(A)` call clears `isExecuting`
and drains the queue after sub-action `A` alone, so (1) the flag does not
remain set for the composite's whole duration, and (2) the queued descriptor
`D` is executed in the middle of the composite — before sub-action `B` —
rather than staying queued until the composite completes.  Both conjuncts of
the claim fail. -/
theorem actionScheduler_single_flight_counterexample :
    (runSeq 9 ⟨true, [ActionDescriptor.oneshot "D" none]⟩
        [ActionDescriptor.composite false
          [ActionDescriptor.oneshot "A" none, ActionDescriptor.oneshot "B" none]]).2
      = [Ev.flagSet, Ev.flagSet, Ev.run "A", Ev.flagClear, Ev.flagSet, Ev.run "D",
         Ev.flagClear, Ev.flagSet, Ev.run "B", Ev.flagClear, Ev.flagClear] ∧
    execFlagSetThroughout
      (runSeq 9 ⟨true, [ActionDescriptor.oneshot "D" none]⟩
        [ActionDescriptor.composite false
          [ActionDescriptor.oneshot "A" none, ActionDescriptor.oneshot "B" none]]).2
      = false ∧
    (runSeq 9 ⟨true, [ActionDescriptor.oneshot "D" none]⟩
        [ActionDescriptor.composite false
          [ActionDescriptor.oneshot "A" none, ActionDescriptor.oneshot "B" none]]).2.indexOf
        (Ev.run "D")
      < (runSeq 9 ⟨true, [ActionDescriptor.oneshot "D" none]⟩
        [ActionDescriptor.composite false
          [ActionDescriptor.oneshot "A" none, ActionDescriptor.oneshot "B" none]]).2.indexOf
        (Ev.run "B") := by
  refine ⟨?_, ?_, ?_⟩ <;> decide

/-- **C2** (amended).  What the code guarantees instead: a *primitive*
(non-composite) action executed from an empty queue holds the executing flag
for its whole duration — its trace is exactly `[flagSet, run, flagClear]` —
while a sequential composite of two primitives, executed from an empty queue,
clears the flag after *each* sub-action (trace
`[flagSet, flagSet, run a, flagClear, flagSet, run b, flagClear, flagClear]`),
because each sub-action runs through a recursive `executeAction` whose
`finally` clears the flag and drains the queue. -/
theorem executeAction_flag_protocol (fuel : Nat) (b : Bool)
    (n n1 n2 : String) (d d1 d2 : Option ℚ) :
    (runSeq (fuel + 3) ⟨b, []⟩ [ActionDescriptor.oneshot n d]).2
      = [Ev.flagSet, Ev.run n, Ev.flagClear] ∧
    (runSeq (fuel + 3) ⟨b, []⟩
        [ActionDescriptor.composite false
          [ActionDescriptor.oneshot n1 d1, ActionDescriptor.oneshot n2 d2]]).2
      = [Ev.flagSet, Ev.flagSet, Ev.run n1, Ev.flagClear, Ev.flagSet, Ev.run n2,
         Ev.flagClear, Ev.flagClear] := by
  constructor
  · show (runSeq (fuel + 2 + 1) ⟨b, []⟩ [ActionDescriptor.oneshot n d]).2
      = [Ev.flagSet, Ev.run n, Ev.flagClear]
    simp [runSeq]
  · show (runSeq (fuel + 2 + 1) ⟨b, []⟩ _).2 = _
    simp only [runSeq]
    norm_num [show fuel + 2 = fuel + 1 + 1 from rfl, runSeq]

/-- Witness for `executeAction_flag_protocol` at concrete fuel, names and
durations. -/
theorem executeAction_flag_protocol_witness :
    (runSeq 9 ⟨false, []⟩ [ActionDescriptor.oneshot "jump" (some 800)]).2
      = [Ev.flagSet, Ev.run "jump", Ev.flagClear] :=
  (executeAction_flag_protocol 6 false "jump" "a" "b" (some 800) none none).1

/-! ## Timing semantics of `executeComposite` (lines 530-550, 493-528)

A denotational model of the promise chaining in `executeAction`'s bodies for
a single action executed in isolation (empty queue).  `finishTime a t` is the
time at which the promise for `a` started at time `t` resolves:
* `oneshot` resolves after `setTimeout(resolve, action.duration || 1000)`
  (lines 545-550);
* `locomotion` with a target chains rotate (0.5) → move (`duration || 2500`)
  → a 200 timeout → rotate (1.0) (lines 493-528; the code passes these raw
  numbers to differently-scaled clocks, and the model keeps the raw numbers —
  only their positivity matters here); without a target it resolves
  immediately after requesting the clip;
* `composite` with `parallel` awaits `Promise.all`, so it resolves at the
  latest sub-action finish; sequentially it awaits each sub-action in order
  (lines 530-543).

`tIntervals a t` lists the closed time intervals `(start, finish)` of every
primitive stage of `a`; for a parallel composite every sub-action starts at
`t`, for a sequential one each sub-action starts at the previous one's
finish. -/

mutual
def finishTime : ActionDescriptor → ℚ → ℚ
  | ActionDescriptor.oneshot _ d, t => t + jsOr d 1000
  | ActionDescriptor.locomotion _ hasT d, t =>
    if hasT then t + 1/2 + jsOr d 2500 + 200 + 1 else t
  | ActionDescriptor.composite par subs, t =>
    if par then parFinish subs t else seqFinish subs t

def seqFinish : List ActionDescriptor → ℚ → ℚ
  | [], t => t
  | a :: rest, t => seqFinish rest (finishTime a t)

def parFinish : List ActionDescriptor → ℚ → ℚ
  | [], t => t
  | a :: rest, t => max (finishTime a t) (parFinish rest t)
end

mutual
def tIntervals : ActionDescriptor → ℚ → List (ℚ × ℚ)
  | ActionDescriptor.oneshot _ d, t => [(t, t + jsOr d 1000)]
  | ActionDescriptor.locomotion _ hasT d, t =>
    if hasT then
      [(t, t + 1/2), (t + 1/2, t + 1/2 + jsOr d 2500),
       (t + 1/2 + jsOr d 2500, t + 1/2 + jsOr d 2500 + 200),
       (t + 1/2 + jsOr d 2500 + 200, t + 1/2 + jsOr d 2500 + 200 + 1)]
    else [(t, t)]
  | ActionDescriptor.composite par subs, t =>
    if par then parIntervals subs t else seqIntervals subs t

def seqIntervals : List ActionDescriptor → ℚ → List (ℚ × ℚ)
  | [], _ => []
  | a :: rest, t => tIntervals a t ++ seqIntervals rest (finishTime a t)

def parIntervals : List ActionDescriptor → ℚ → List (ℚ × ℚ)
  | [], _ => []
  | a :: rest, t => tIntervals a t ++ parIntervals rest t
end

/-- Durations in a descriptor are well-formed times: every explicitly given
duration is nonnegative. -/
def optDurOk (d : Option ℚ) : Bool :=
  match d with
  | none => true
  | some x => decide (0 ≤ x)

mutual
def durOk : ActionDescriptor → Bool
  | ActionDescriptor.oneshot _ d => optDurOk d
  | ActionDescriptor.locomotion _ _ d => optDurOk d
  | ActionDescriptor.composite _ subs => subsOk subs

def subsOk : List ActionDescriptor → Bool
  | [] => true
  | a :: rest => durOk a && subsOk rest
end

theorem jsOr_nonneg (d : Option ℚ) (dflt : ℚ) (hd : optDurOk d = true)
    (h : 0 ≤ dflt) : 0 ≤ jsOr d dflt := by
  match d with
  | none => simpa [jsOr]
  | some x =>
    simp only [optDurOk, decide_eq_true_eq] at hd
    simp only [jsOr]
    split <;> [exact h; exact hd]

mutual
theorem finishTime_ge (a : ActionDescriptor) (t : ℚ) (h : durOk a = true) :
    t ≤ finishTime a t := by
  match a with
  | ActionDescriptor.oneshot n d =>
    have := jsOr_nonneg d 1000 (by simpa [durOk] using h) (by norm_num)
    simp only [finishTime]
    linarith
  | ActionDescriptor.locomotion n hasT d =>
    have := jsOr_nonneg d 2500 (by simpa [durOk] using h) (by norm_num)
    simp only [finishTime]
    split <;> linarith
  | ActionDescriptor.composite par subs =>
    have hs : subsOk subs = true := by simpa [durOk] using h
    simp only [finishTime]
    split
    · exact parFinish_ge subs t
    · exact seqFinish_ge subs t hs

theorem seqFinish_ge (l : List ActionDescriptor) (t : ℚ) (h : subsOk l = true) :
    t ≤ seqFinish l t := by
  match l with
  | [] => simp [seqFinish]
  | a :: rest =>
    simp only [subsOk, Bool.and_eq_true] at h
    calc t ≤ finishTime a t := finishTime_ge a t h.1
    _ ≤ seqFinish rest (finishTime a t) := seqFinish_ge rest _ h.2
    _ = seqFinish (a :: rest) t := by rw [seqFinish]

theorem parFinish_ge (l : List ActionDescriptor) (t : ℚ) :
    t ≤ parFinish l t := by
  match l with
  | [] => simp [parFinish]
  | a :: rest =>
    calc t ≤ parFinish rest t := parFinish_ge rest t
    _ ≤ parFinish (a :: rest) t := by rw [parFinish]; exact le_max_right _ _
end

mutual
theorem tIntervals_bounds (a : ActionDescriptor) (t : ℚ) (h : durOk a = true) :
    ∀ p ∈ tIntervals a t, t ≤ p.1 ∧ p.2 ≤ finishTime a t := by
  match a with
  | ActionDescriptor.oneshot n d =>
    intro p hp
    simp only [tIntervals, List.mem_singleton] at hp
    subst hp
    simp [finishTime]
  | ActionDescriptor.locomotion n hasT d =>
    have hj := jsOr_nonneg d 2500 (by simpa [durOk] using h) (by norm_num)
    intro p hp
    simp only [tIntervals, finishTime] at hp ⊢
    split at hp <;> rename_i hT <;> simp only [List.mem_cons, List.mem_singleton,
      List.not_mem_nil, or_false] at hp
    · rw [if_pos hT]
      rcases hp with hp | hp | hp | hp <;> subst hp <;> constructor <;> linarith
    · rw [if_neg hT]
      subst hp
      simp
  | ActionDescriptor.composite par subs =>
    have hs : subsOk subs = true := by simpa [durOk] using h
    intro p hp
    simp only [tIntervals, finishTime] at hp ⊢
    split at hp
    · rw [if_pos (by assumption)]
      exact parIntervals_bounds subs t hs p hp
    · rw [if_neg (by assumption)]
      exact seqIntervals_bounds subs t hs p hp

theorem seqIntervals_bounds (l : List ActionDescriptor) (t : ℚ)
    (h : subsOk l = true) :
    ∀ p ∈ seqIntervals l t, t ≤ p.1 ∧ p.2 ≤ seqFinish l t := by
  match l with
  | [] => simp [seqIntervals]
  | a :: rest =>
    simp only [subsOk, Bool.and_eq_true] at h
    intro p hp
    simp only [seqIntervals, List.mem_append] at hp
    rw [seqFinish]
    rcases hp with hp | hp
    · obtain ⟨h1, h2⟩ := tIntervals_bounds a t h.1 p hp
      exact ⟨h1, le_trans h2 (seqFinish_ge rest _ h.2)⟩
    · obtain ⟨h1, h2⟩ := seqIntervals_bounds rest (finishTime a t) h.2 p hp
      exact ⟨le_trans (finishTime_ge a t h.1) h1, h2⟩

theorem parIntervals_bounds (l : List ActionDescriptor) (t : ℚ)
    (h : subsOk l = true) :
    ∀ p ∈ parIntervals l t, t ≤ p.1 ∧ p.2 ≤ parFinish l t := by
  match l with
  | [] => simp [parIntervals]
  | a :: rest =>
    simp only [subsOk, Bool.and_eq_true] at h
    intro p hp
    simp only [parIntervals, List.mem_append] at hp
    rw [parFinish]
    rcases hp with hp | hp
    · obtain ⟨h1, h2⟩ := tIntervals_bounds a t h.1 p hp
      exact ⟨h1, le_trans h2 (le_max_left _ _)⟩
    · obtain ⟨h1, h2⟩ := parIntervals_bounds rest t h.2 p hp
      exact ⟨h1, le_trans h2 (le_max_right _ _)⟩
end

/-- **C4** (confirmed).  A sequential composite `[A, B, C]` runs its
sub-actions back to back: its stage intervals are exactly those of `A`
started at `t`, then those of `B` started at `A`'s finish, then those of `C`
started at `B`'s finish, and every stage of `A` ends no later than any stage
of `B` begins (and likewise for `B` before `C`) — `A` completes fully before
`B` starts.  A parallel composite launches all sub-actions at `t` and
resolves at `Promise.all` time: no earlier than each sub-action's own finish,
whatever their relative order. -/
theorem executeComposite_ordering (t : ℚ) (A B C : ActionDescriptor)
    (hA : durOk A = true) (hB : durOk B = true) (hC : durOk C = true) :
    tIntervals (ActionDescriptor.composite false [A, B, C]) t
      = tIntervals A t ++ tIntervals B (finishTime A t)
        ++ tIntervals C (finishTime B (finishTime A t)) ∧
    (∀ p ∈ tIntervals A t, ∀ q ∈ tIntervals B (finishTime A t), p.2 ≤ q.1) ∧
    (∀ p ∈ tIntervals B (finishTime A t),
      ∀ q ∈ tIntervals C (finishTime B (finishTime A t)), p.2 ≤ q.1) ∧
    (∀ D ∈ [A, B, C],
      finishTime D t ≤ finishTime (ActionDescriptor.composite true [A, B, C]) t) := by
  refine ⟨?_, ?_, ?_, ?_⟩
  · simp [tIntervals, seqIntervals]
  · intro p hp q hq
    have h1 := (tIntervals_bounds A t hA p hp).2
    have h2 := (tIntervals_bounds B (finishTime A t) hB q hq).1
    linarith
  · intro p hp q hq
    have h1 := (tIntervals_bounds B (finishTime A t) hB p hp).2
    have h2 := (tIntervals_bounds C (finishTime B (finishTime A t)) hC q hq).1
    linarith
  · intro D hD
    have hfin : finishTime (ActionDescriptor.composite true [A, B, C]) t
        = max (finishTime A t) (max (finishTime B t) (max (finishTime C t) t)) := by
      simp [finishTime, parFinish]
    rw [hfin]
    simp only [List.mem_cons, List.not_mem_nil, or_false] at hD
    rcases hD with h | h | h <;> subst h
    · exact le_max_left _ _
    · exact le_trans (le_max_left _ _) (le_max_right _ _)
    · exact le_trans (le_trans (le_max_left _ _) (le_max_right _ _)) (le_max_right _ _)

/-- Witness for `executeComposite_ordering` at three concrete one-shot
sub-actions started at time 0. -/
theorem executeComposite_ordering_witness :
    (tIntervals (ActionDescriptor.composite false
        [ActionDescriptor.oneshot "a" (some 800), ActionDescriptor.oneshot "b" (some 500),
         ActionDescriptor.oneshot "c" none]) 0
      = tIntervals (ActionDescriptor.oneshot "a" (some 800)) 0
        ++ tIntervals (ActionDescriptor.oneshot "b" (some 500))
          (finishTime (ActionDescriptor.oneshot "a" (some 800)) 0)
        ++ tIntervals (ActionDescriptor.oneshot "c" none)
          (finishTime (ActionDescriptor.oneshot "b" (some 500))
            (finishTime (ActionDescriptor.oneshot "a" (some 800)) 0))) ∧
    finishTime (ActionDescriptor.oneshot "b" (some 500)) 0
      ≤ finishTime (ActionDescriptor.composite true
          [ActionDescriptor.oneshot "a" (some 800), ActionDescriptor.oneshot "b" (some 500),
           ActionDescriptor.oneshot "c" none]) 0 :=
  ⟨(executeComposite_ordering 0 (ActionDescriptor.oneshot "a" (some 800))
      (ActionDescriptor.oneshot "b" (some 500)) (ActionDescriptor.oneshot "c" none)
      (by simp [durOk, optDurOk]) (by simp [durOk, optDurOk]) (by simp [durOk, optDurOk])).1,
   (executeComposite_ordering 0 (ActionDescriptor.oneshot "a" (some 800))
      (ActionDescriptor.oneshot "b" (some 500)) (ActionDescriptor.oneshot "c" none)
      (by simp [durOk, optDurOk]) (by simp [durOk, optDurOk]) (by simp [durOk, optDurOk])).2.2.2
     (ActionDescriptor.oneshot "b" (some 500)) (by simp)⟩

/-! ## ContextDrivenAnimationController (src/script.js lines 568-676)

Texts are modelled as `List Char`; JavaScript `toLowerCase` is
`Char.toLower` mapped over the characters, and `String.includes` is the
substring test `containsSub`.  `contextMappings` is the configuration table
of lines 573-610, verbatim.  Random draws are supplied explicitly: one
jitter draw per mapping (`rands i` for the `i`-th mapping, line 667) and one
firing draw (`fireRand`, line 621). -/

structure ContextMapping where
  keywords : List String
  emotions : List String
  action : String
  weight : ℚ

def contextMappings : List ContextMapping :=
  [{ keywords := ["walk", "walking", "stroll", "pace", "step"],
     emotions := ["rain", "outside", "path", "journey"],
     action := "performWalkingContext", weight := 1 },
   { keywords := ["run", "running", "sprint", "fast", "speed", "rush"],
     emotions := ["energy", "quick", "hurry", "race"],
     action := "performRunningContext", weight := 1 },
   { keywords := ["jump", "jumping", "leap", "hop", "bounce"],
     emotions := ["excited", "happy", "joy", "celebrate"],
     action := "performJumpingContext", weight := 4/5 },
   { keywords := ["sleep", "tired", "sleepy", "rest", "nap"],
     emotions := ["exhausted", "peaceful", "calm", "quiet"],
     action := "performSleepingContext", weight := 7/10 },
   { keywords := ["look", "see", "watch", "observe", "gaze"],
     emotions := ["curious", "wonder", "interesting", "notice"],
     action := "performLookingContext", weight := 3/5 },
   { keywords := ["play", "fun", "game", "toy", "playful"],
     emotions := ["joy", "entertainment", "amusing", "funny"],
     action := "performPlayfulContext", weight := 9/10 }]

/-- Does `sub` occur at the head of the character list? -/
def strHasPrefixAt : List Char → List Char → Bool
  | _, [] => true
  | [], _ :: _ => false
  | c :: cs, d :: ds => c = d && strHasPrefixAt cs ds

/-- JavaScript `text.includes(sub)`: `sub` occurs contiguously somewhere in
`text`. -/
def containsSub : List Char → List Char → Bool
  | [], sub => sub.isEmpty
  | c :: cs, sub => strHasPrefixAt (c :: cs) sub || containsSub cs sub

def jsIncludes (text : List Char) (sub : String) : Bool :=
  containsSub text sub.toList

/-- Lines 653-665: 2 points per keyword substring match plus 1 point per
emotion-keyword substring match. -/
def rawScore (text : List Char) (m : ContextMapping) : ℚ :=
  2 * ((m.keywords.filter (fun kw => jsIncludes text kw)).length : ℚ)
    + ((m.emotions.filter (fun em => jsIncludes text em)).length : ℚ)

/-- The per-evaluation random jitter `0.8 + Math.random() * 0.4` of
line 667. -/
def jitterFactor (rand : ℚ) : ℚ := 4/5 + rand * (2/5)

/-- Line 667: `score *= mapping.weight * (0.8 + Math.random() * 0.4)`. -/
def mappingScore (rand : ℚ) (text : List Char) (m : ContextMapping) : ℚ :=
  rawScore text m * (m.weight * jitterFactor rand)

/-- The accumulator loop of `findBestContextMatch` (lines 648-675):
`acc = (bestMatch, highestScore)`, updated when
`score > highestScore && score > 1.5`. -/
def findBestAux (f : Nat → ContextMapping → ℚ) :
    List ContextMapping → Nat → Option ContextMapping × ℚ →
      Option ContextMapping × ℚ
  | [], _, acc => acc
  | m :: rest, i, acc =>
    if acc.2 < f i m ∧ 3/2 < f i m then findBestAux f rest (i + 1) (some m, f i m)
    else findBestAux f rest (i + 1) acc

/-- `findBestContextMatch(text)`, lines 648-676, with the per-mapping jitter
draws made explicit. -/
def findBestContextMatch (rands : Nat → ℚ) (text : List Char) :
    Option ContextMapping :=
  (findBestAux (fun i m => mappingScore (rands i) text m) contextMappings 0
    (none, 0)).1

theorem getConsZero {α : Type} (a : α) (l : List α) (h : 0 < (a :: l).length) :
    (a :: l).get ⟨0, h⟩ = a := rfl

theorem getConsSucc {α : Type} (a : α) (l : List α) (k : Nat)
    (h : k + 1 < (a :: l).length) :
    (a :: l).get ⟨k + 1, h⟩ = l.get ⟨k, by simpa using h⟩ := rfl

/-- Characterization of the accumulator loop: either no update ever fires
(and every score from position `i` on is at most the running best or at most
the 1.5 threshold), or the final result is the *first* mapping attaining the
maximal score, that score beating both the incoming best and the
threshold. -/
theorem findBestAux_spec (f : Nat → ContextMapping → ℚ)
    (l : List ContextMapping) :
    ∀ (i : Nat) (best : Option ContextMapping) (hi : ℚ),
      (findBestAux f l i (best, hi) = (best, hi) ∧
        ∀ (j : Nat) (hj : j < l.length),
          f (i + j) (l.get ⟨j, hj⟩) ≤ hi ∨ f (i + j) (l.get ⟨j, hj⟩) ≤ 3/2) ∨
      (∃ (j : Nat) (hj : j < l.length),
        findBestAux f l i (best, hi)
          = (some (l.get ⟨j, hj⟩), f (i + j) (l.get ⟨j, hj⟩)) ∧
        hi < f (i + j) (l.get ⟨j, hj⟩) ∧ 3/2 < f (i + j) (l.get ⟨j, hj⟩) ∧
        (∀ (k : Nat) (hk : k < l.length),
          f (i + k) (l.get ⟨k, hk⟩) ≤ f (i + j) (l.get ⟨j, hj⟩)) ∧
        (∀ (k : Nat) (hk : k < l.length), k < j →
          f (i + k) (l.get ⟨k, hk⟩) < f (i + j) (l.get ⟨j, hj⟩))) := by
  induction l with
  | nil =>
    intro i best hi
    left
    exact ⟨rfl, fun j hj => absurd hj (by simp)⟩
  | cons m rest ih =>
    intro i best hi
    by_cases hcond : hi < f i m ∧ 3/2 < f i m
    · have hstep : findBestAux f (m :: rest) i (best, hi)
          = findBestAux f rest (i + 1) (some m, f i m) := by
        rw [findBestAux, if_pos hcond]
      rcases ih (i + 1) (some m) (f i m) with ⟨heq, hall⟩ |
        ⟨j', hj', heq, hlt, hgt, hmax, hfirst⟩
      · right
        refine ⟨0, by simp, ?_, ?_, ?_, ?_, ?_⟩
        · rw [hstep, heq, getConsZero, Nat.add_zero]
        · rw [getConsZero, Nat.add_zero]; exact hcond.1
        · rw [getConsZero, Nat.add_zero]; exact hcond.2
        · intro k hk
          rw [getConsZero, Nat.add_zero]
          match k with
          | 0 => rw [getConsZero, Nat.add_zero]
          | k' + 1 =>
            rw [getConsSucc, show i + (k' + 1) = i + 1 + k' from by omega]
            rcases hall k' (by simpa using hk) with h | h
            · exact h
            · linarith [hcond.2]
        · intro k hk hk0
          omega
      · right
        refine ⟨j' + 1, by simpa using hj', ?_, ?_, ?_, ?_, ?_⟩
        · rw [hstep, heq, getConsSucc,
            show i + (j' + 1) = i + 1 + j' from by omega]
        · rw [getConsSucc, show i + (j' + 1) = i + 1 + j' from by omega]
          exact lt_trans hcond.1 hlt
        · rw [getConsSucc, show i + (j' + 1) = i + 1 + j' from by omega]
          exact hgt
        · intro k hk
          rw [getConsSucc, show i + (j' + 1) = i + 1 + j' from by omega]
          match k with
          | 0 =>
            rw [getConsZero, Nat.add_zero]
            exact le_of_lt hlt
          | k' + 1 =>
            rw [getConsSucc, show i + (k' + 1) = i + 1 + k' from by omega]
            exact hmax k' (by simpa using hk)
        · intro k hk hkj
          rw [getConsSucc, show i + (j' + 1) = i + 1 + j' from by omega]
          match k with
          | 0 =>
            rw [getConsZero, Nat.add_zero]
            exact hlt
          | k' + 1 =>
            rw [getConsSucc, show i + (k' + 1) = i + 1 + k' from by omega]
            exact hfirst k' (by simpa using hk) (by omega)
    · have hstep : findBestAux f (m :: rest) i (best, hi)
          = findBestAux f rest (i + 1) (best, hi) := by
        rw [findBestAux, if_neg hcond]
      have hm : f i m ≤ hi ∨ f i m ≤ 3/2 := by
        rcases not_and_or.mp hcond with h | h
        · exact Or.inl (not_lt.mp h)
        · exact Or.inr (not_lt.mp h)
      rcases ih (i + 1) best hi with ⟨heq, hall⟩ |
        ⟨j', hj', heq, hlt, hgt, hmax, hfirst⟩
      · left
        refine ⟨by rw [hstep, heq], ?_⟩
        intro j hj
        match j with
        | 0 => rw [getConsZero, Nat.add_zero]; exact hm
        | j2 + 1 =>
          rw [getConsSucc, show i + (j2 + 1) = i + 1 + j2 from by omega]
          exact hall j2 (by simpa using hj)
      · right
        have hmlt : f i m < f (i + 1 + j') (rest.get ⟨j', hj'⟩) := by
          rcases hm with h | h
          · exact lt_of_le_of_lt h hlt
          · exact lt_of_le_of_lt h hgt
        refine ⟨j' + 1, by simpa using hj', ?_, ?_, ?_, ?_, ?_⟩
        · rw [hstep, heq, getConsSucc,
            show i + (j' + 1) = i + 1 + j' from by omega]
        · rw [getConsSucc, show i + (j' + 1) = i + 1 + j' from by omega]
          exact hlt
        · rw [getConsSucc, show i + (j' + 1) = i + 1 + j' from by omega]
          exact hgt
        · intro k hk
          rw [getConsSucc, show i + (j' + 1) = i + 1 + j' from by omega]
          match k with
          | 0 =>
            rw [getConsZero, Nat.add_zero]
            exact le_of_lt hmlt
          | k' + 1 =>
            rw [getConsSucc, show i + (k' + 1) = i + 1 + k' from by omega]
            exact hmax k' (by simpa using hk)
        · intro k hk hkj
          rw [getConsSucc, show i + (j' + 1) = i + 1 + j' from by omega]
          match k with
          | 0 =>
            rw [getConsZero, Nat.add_zero]
            exact hmlt
          | k' + 1 =>
            rw [getConsSucc, show i + (k' + 1) = i + 1 + k' from by omega]
            exact hfirst k' (by simpa using hk) (by omega)

/-- The selector's single-flight flag (line 571). -/
structure CtxState where
  isPerformingContextualAction : Bool
deriving DecidableEq, Repr

/-- Line 618: `const combinedText = `${userInput} ${geminiResponse}`
`.toLowerCase()` — concatenation with a separating space, then lowercased. -/
def combinedText (userInput geminiResponse : String) : List Char :=
  (userInput ++ " " ++ geminiResponse).toList.map Char.toLower

/-- The synchronous decision part of `analyzeAndTriggerContextualAction`
(lines 613-624): rejected while busy; otherwise score the combined text, and
if a mapping wins and the independent firing draw is below its weight, mark
busy and fire the mapping's handler (returned by name).  The handler body and
the later idle-return cleanup are beyond this synchronous decision. -/
def analyzeAndTriggerContextualAction (rands : Nat → ℚ) (fireRand : ℚ)
    (st : CtxState) (userInput geminiResponse : String) :
    CtxState × Option String :=
  if st.isPerformingContextualAction then (st, none)
  else
    match findBestContextMatch rands (combinedText userInput geminiResponse) with
    | none => (st, none)
    | some m => if fireRand < m.weight then (⟨true⟩, some m.action) else (st, none)

/-- **C8** (confirmed).  The evaluation concatenates and lowercases the two
texts (definition `combinedText`) and scores each configured mapping as
(2 per keyword substring match + 1 per emotion substring match) × weight ×
jitter, where the jitter `0.8 + rand · 0.4` lies in `[0.8, 1.2)` whenever the
draw lies in `[0, 1)`.  A winner exists only with score strictly above the
1.5 threshold; the winner is the highest-scoring mapping, and on ties the
first in configuration order (every earlier mapping scores strictly less,
every mapping scores no more).  If no mapping's score exceeds 1.5 the result
is `none`, and in particular a text whose raw score is 0 against every
mapping causes `evaluate` to perform no action and leave the busy flag
false. -/
theorem findBestContextMatch_spec (rands : Nat → ℚ) (text : List Char)
    (r fireRand : ℚ) (userInput geminiResponse : String) :
    (0 ≤ r → r < 1 → 4/5 ≤ jitterFactor r ∧ jitterFactor r < 6/5) ∧
    (findBestContextMatch rands text = none →
      ∀ (j : Nat) (hj : j < contextMappings.length),
        mappingScore (rands j) text (contextMappings.get ⟨j, hj⟩) ≤ 3/2) ∧
    (∀ m, findBestContextMatch rands text = some m →
      ∃ (j : Nat) (hj : j < contextMappings.length),
        m = contextMappings.get ⟨j, hj⟩ ∧
        3/2 < mappingScore (rands j) text m ∧
        (∀ (k : Nat) (hk : k < contextMappings.length),
          mappingScore (rands k) text (contextMappings.get ⟨k, hk⟩)
            ≤ mappingScore (rands j) text m) ∧
        (∀ (k : Nat) (hk : k < contextMappings.length), k < j →
          mappingScore (rands k) text (contextMappings.get ⟨k, hk⟩)
            < mappingScore (rands j) text m)) ∧
    ((∀ mp ∈ contextMappings,
        rawScore (combinedText userInput geminiResponse) mp = 0) →
      analyzeAndTriggerContextualAction rands fireRand ⟨false⟩ userInput
        geminiResponse = (⟨false⟩, none)) := by
  refine ⟨?_, ?_, ?_, ?_⟩
  · intro h0 h1
    unfold jitterFactor
    constructor
    · have : 0 ≤ r * (2/5) := mul_nonneg h0 (by norm_num)
      linarith
    · have : r * (2/5) < 1 * (2/5) :=
        mul_lt_mul_of_pos_right h1 (by norm_num)
      linarith
  · intro hnone j hj
    rcases findBestAux_spec (fun i mp => mappingScore (rands i) text mp)
        contextMappings 0 none 0 with ⟨heq, hall⟩ |
      ⟨j', hj', heq, hlt, hgt, hmax, hfirst⟩
    · rcases hall j hj with h | h
      · simp only [Nat.zero_add] at h
        linarith
      · simpa using h
    · exfalso
      have : findBestContextMatch rands text
          = some (contextMappings.get ⟨j', hj'⟩) := by
        unfold findBestContextMatch
        rw [heq]
      rw [hnone] at this
      exact Option.noConfusion this
  · intro m hm
    rcases findBestAux_spec (fun i mp => mappingScore (rands i) text mp)
        contextMappings 0 none 0 with ⟨heq, hall⟩ |
      ⟨j', hj', heq, hlt, hgt, hmax, hfirst⟩
    · exfalso
      have : findBestContextMatch rands text = none := by
        unfold findBestContextMatch
        rw [heq]
      rw [hm] at this
      exact Option.noConfusion this
    · have hres : findBestContextMatch rands text
          = some (contextMappings.get ⟨j', hj'⟩) := by
        unfold findBestContextMatch
        rw [heq]
      rw [hm] at hres
      have hmj : m = contextMappings.get ⟨j', hj'⟩ := by
        exact Option.some.inj hres
      refine ⟨j', hj', hmj, ?_, ?_, ?_⟩
      · rw [hmj]
        simpa using hgt
      · intro k hk
        rw [hmj]
        have := hmax k hk
        simpa using this
      · intro k hk hkj
        rw [hmj]
        have := hfirst k hk hkj
        simpa using this
  · intro hzero
    have hn : findBestContextMatch rands (combinedText userInput geminiResponse)
        = none := by
      rcases findBestAux_spec
          (fun i mp => mappingScore (rands i)
            (combinedText userInput geminiResponse) mp)
          contextMappings 0 none 0 with ⟨heq, hall⟩ |
        ⟨j', hj', heq, hlt, hgt, hmax, hfirst⟩
      · unfold findBestContextMatch
        rw [heq]
      · exfalso
        have hz := hzero (contextMappings.get ⟨j', hj'⟩)
          (contextMappings.get_mem j' hj')
        have : mappingScore (rands (0 + j'))
            (combinedText userInput geminiResponse)
            (contextMappings.get ⟨j', hj'⟩) = 0 := by
          unfold mappingScore
          rw [hz, zero_mul]
        rw [this] at hgt
        norm_num at hgt
    unfold analyzeAndTriggerContextualAction
    rw [hn]
    rfl

theorem rawScore_eq_zero (text : List Char) (mp : ContextMapping)
    (h1 : (mp.keywords.filter (fun kw => jsIncludes text kw)).length = 0)
    (h2 : (mp.emotions.filter (fun em => jsIncludes text em)).length = 0) :
    rawScore text mp = 0 := by
  unfold rawScore
  rw [h1, h2]
  norm_num

/-- Witness for `findBestContextMatch_spec`: the text "hello" / "there"
scores 0 against every configured mapping, so `evaluate` does nothing and
the busy flag stays false; the jitter draw 1/2 gives a factor of 1. -/
theorem findBestContextMatch_spec_witness :
    (4/5 ≤ jitterFactor (1/2) ∧ jitterFactor (1/2) < 6/5) ∧
    analyzeAndTriggerContextualAction (fun _ => 1/2) (1/2) ⟨false⟩ "hello"
      "there" = (⟨false⟩, none) :=
  ⟨(findBestContextMatch_spec (fun _ => 1/2) [] (1/2) (1/2) "hello" "there").1
      (by norm_num) (by norm_num),
   (findBestContextMatch_spec (fun _ => 1/2) [] (1/2) (1/2) "hello" "there").2.2.2
      (by
        intro mp hmp
        simp only [contextMappings, List.mem_cons, List.not_mem_nil,
          or_false] at hmp
        rcases hmp with h | h | h | h | h | h <;> subst h <;>
          exact rawScore_eq_zero _ _ (by decide) (by decide))⟩

/-! ## BehaviorStateMachine (src/script.js lines 819-942)

`BSM` carries the machine's own fields (lines 822-825) together with the
cat-side field the entry actions mutate (`mood`).  `performance.now()` is the
explicit `now` argument.  Entry actions that reach other components — the
idle clip request of line 871 and `enterSleepMode()` of line 884 — are
returned as effects. -/

structure BSM where
  currentState : String
  previousState : String
  stateStartTime : ℚ
  stateData : List (String × String)
  mood : String
deriving DecidableEq, Repr

inductive BsmEffect where
  | playIdleClip
  | enterSleepMode
deriving DecidableEq, Repr

/-- `onStateEnter(state)`, lines 867-893. -/
def onStateEnter (m : BSM) (state : String) : BSM × List BsmEffect :=
  if state = "idle" then ({ m with mood := "neutral" }, [BsmEffect.playIdleClip])
  else if state = "playful" then ({ m with mood := "happy" }, [])
  else if state = "curious" then ({ m with mood := "curious" }, [])
  else if state = "talking" then ({ m with mood := "engaged" }, [])
  else if state = "sleep" then
    ({ m with mood := "sleepy" }, [BsmEffect.enterSleepMode])
  else if state = "processing" then ({ m with mood := "engaged" }, [])
  else if state = "listening" then ({ m with mood := "curious" }, [])
  else (m, [])

/-- `changeState(newState, stateData)`, lines 857-865: same-state calls
return immediately; otherwise record previous/current state, reset the state
clock, store the payload and run the entry action. -/
def changeState (m : BSM) (now : ℚ) (newState : String)
    (stateData : List (String × String)) : BSM × List BsmEffect :=
  if newState = m.currentState then (m, [])
  else
    onStateEnter
      { m with previousState := m.currentState, currentState := newState,
               stateStartTime := now, stateData := stateData }
      newState

/-- **C10** (confirmed).  Calling `changeState(s)` while `s` is already the
current state returns immediately with no effect: the machine state
(including `currentState`, `previousState`, `stateStartTime`, `stateData`
and the mood) is returned unchanged and no entry action — no clip change, no
sleep-mode side effect — runs. -/
theorem changeState_same_state_noop (m : BSM) (now : ℚ) (s : String)
    (d : List (String × String)) (h : s = m.currentState) :
    changeState m now s d = (m, []) := by
  unfold changeState
  rw [if_pos h]

/-- Witness for `changeState_same_state_noop`: re-entering "idle" while
idle. -/
theorem changeState_same_state_noop_witness :
    changeState ⟨"idle", "sleep", 100, [], "neutral"⟩ 250 "idle" []
      = (⟨"idle", "sleep", 100, [], "neutral"⟩, []) :=
  changeState_same_state_noop ⟨"idle", "sleep", 100, [], "neutral"⟩ 250 "idle"
    [] rfl

/-! ## ProceduralAnimationLayer (src/script.js lines 213-452)

Bone rotations are Euler triples over `ℝ` (only the components the layer
touches matter).  Presence of a bone/model is a `Bool` (missing bones are
no-ops); cached baselines are `Option Euler3` (the `boneBaselines` map).
`ProcDraws` carries the tick's `Math.random()` draws: the tail-flick trigger
(line 327), the ear-twitch trigger and its side pick (lines 337-338).  A
triggered flick/twitch is modelled at its first, synchronously executed
animation frame, where `progress = 0` and the overriding offset is
`sin(0)·amount = 0`, i.e. the bone component is written back to its
baseline value (lines 403-447).  The breathing fields `breathingIntensity`
and `breathingRate` exist on the JS state object but `applyBreathing` uses
locals instead; they are carried but never read, like in the source. -/

noncomputable section

structure Euler3 where
  x : ℝ
  y : ℝ
  z : ℝ

structure ProcState where
  time : ℝ
  tailBaseIntensity : ℝ
  tailCurrentIntensity : ℝ
  tailPhase : ℝ
  tailSpeed : ℝ
  earsLeftPhase : ℝ
  earsRightPhase : ℝ
  earsTwitchProbability : ℝ
  breathingPhase : ℝ
  breathingIntensity : ℝ
  breathingRate : ℝ
  baseHead : Option Euler3
  baseTail : Option Euler3
  baseLeftEar : Option Euler3
  baseRightEar : Option Euler3
  originalModelScale : Option ℝ
  hasHead : Bool
  hasTail : Bool
  hasLeftEar : Bool
  hasRightEar : Bool
  hasModel : Bool
  headRot : Euler3
  tailRot : Euler3
  leftEarRot : Euler3
  rightEarRot : Euler3
  scaleX : ℝ
  scaleY : ℝ
  mood : String
  catState : String
  isTalking : Bool
  talkingIntensity : ℝ

structure ProcDraws where
  tailFlickDraw : ℝ
  earTwitchDraw : ℝ
  earSideDraw : ℝ

def lerp (start finish factor : ℝ) : ℝ := start + (finish - start) * factor

/-- One guard of `resetBaselines` (lines 255-269): restore the baseline to
the bone when the bone exists and a baseline was cached. -/
def resetBone (has : Bool) (base : Option Euler3) (rot : Euler3) : Euler3 :=
  match base with
  | some b => if has then b else rot
  | none => rot

def resetBaselines (s : ProcState) : ProcState :=
  { s with
    headRot := resetBone s.hasHead s.baseHead s.headRot,
    tailRot := resetBone s.hasTail s.baseTail s.tailRot,
    leftEarRot := resetBone s.hasLeftEar s.baseLeftEar s.leftEarRot,
    rightEarRot := resetBone s.hasRightEar s.baseRightEar s.rightEarRot }

/-- `cacheBaselines()`, lines 271-289: snapshot the current rotation of each
present bone. -/
def cacheBaselines (s : ProcState) : ProcState :=
  { s with
    baseHead := if s.hasHead then some s.headRot else s.baseHead,
    baseTail := if s.hasTail then some s.tailRot else s.baseTail,
    baseLeftEar := if s.hasLeftEar then some s.leftEarRot else s.baseLeftEar,
    baseRightEar := if s.hasRightEar then some s.rightEarRot else s.baseRightEar }

/-- The `switch (this.cat.mood)` intensity glide of lines 297-317. -/
def tailIntensityFor (s : ProcState) (delta : ℝ) : ℝ :=
  if s.mood = "happy" then lerp s.tailCurrentIntensity (2/5) (delta * 2)
  else if s.mood = "excited" then lerp s.tailCurrentIntensity (3/5) (delta * 3)
  else if s.mood = "curious" then lerp s.tailCurrentIntensity (3/10) (delta * (3/2))
  else if s.mood = "sleepy" then lerp s.tailCurrentIntensity (1/10) delta
  else lerp s.tailCurrentIntensity s.tailBaseIntensity delta

/-- The `switch (this.cat.mood)` speed assignment of lines 297-317. -/
def tailSpeedFor (s : ProcState) : ℝ :=
  if s.mood = "happy" then 2
  else if s.mood = "excited" then 3
  else if s.mood = "curious" then 3/2
  else if s.mood = "sleepy" then 1/2
  else 1

/-- `applyTailMotion(delta)`, lines 291-330: no-op without a tail bone;
otherwise glide intensity/speed by mood, advance the phase, and write
`baseline + sin/cos offsets` into the tail's y and z rotation (the x
component is left as is).  A flick draw below 0.005 triggers
`performTailFlick`, whose first frame overwrites y with the baseline value
(offset `sin(0)·amount = 0`). -/
def applyTailMotion (delta : ℝ) (r : ProcDraws) (s : ProcState) : ProcState :=
  if s.hasTail = false then s
  else
    { s with
      tailCurrentIntensity := tailIntensityFor s delta,
      tailSpeed := tailSpeedFor s,
      tailPhase := s.tailPhase + delta * tailSpeedFor s,
      tailRot :=
        ⟨s.tailRot.x,
         if r.tailFlickDraw < 1/200 then (s.baseTail.getD ⟨0, 0, 0⟩).y
         else (s.baseTail.getD ⟨0, 0, 0⟩).y
           + Real.sin (s.tailPhase + delta * tailSpeedFor s)
             * tailIntensityFor s delta,
         (s.baseTail.getD ⟨0, 0, 0⟩).z
           + Real.cos ((s.tailPhase + delta * tailSpeedFor s) * (7/10))
             * tailIntensityFor s delta * (1/2)⟩ }

/-- The mood-based ear positioning of lines 345-355: while mood is "curious"
both ears advance their phases and oscillate about their baseline x. -/
def earCuriousStep (delta : ℝ) (s : ProcState) : ProcState :=
  if s.mood = "curious" then
    { s with
      earsLeftPhase := s.earsLeftPhase + delta * 2,
      earsRightPhase := s.earsRightPhase + delta * (17/10),
      leftEarRot :=
        ⟨(s.baseLeftEar.getD ⟨0, 0, 0⟩).x
           + Real.sin (s.earsLeftPhase + delta * 2) * (1/20),
         s.leftEarRot.y, s.leftEarRot.z⟩,
      rightEarRot :=
        ⟨(s.baseRightEar.getD ⟨0, 0, 0⟩).x
           + Real.sin (s.earsRightPhase + delta * (17/10)) * (1/20),
         s.rightEarRot.y, s.rightEarRot.z⟩ }
  else s

/-- `applyEarMotions(delta)`, lines 332-356: no-op unless both ears exist; a
twitch draw below the twitch probability first twitches one ear (side chosen
by a second draw, the synchronous first frame restoring the baseline x), and
then the "curious" oscillation of lines 345-355 runs, overwriting the
twitched x while that mood holds. -/
def applyEarMotions (delta : ℝ) (r : ProcDraws) (s : ProcState) : ProcState :=
  if (s.hasLeftEar && s.hasRightEar) = false then s
  else
    earCuriousStep delta
      (if r.earTwitchDraw < s.earsTwitchProbability then
        if 1/2 < r.earSideDraw then
          { s with leftEarRot :=
              ⟨(s.baseLeftEar.getD ⟨0, 0, 0⟩).x, s.leftEarRot.y,
               s.leftEarRot.z⟩ }
        else
          { s with rightEarRot :=
              ⟨(s.baseRightEar.getD ⟨0, 0, 0⟩).x, s.rightEarRot.y,
               s.rightEarRot.z⟩ }
      else s)

/-- `applyBreathing(delta)`, lines 358-375: no-op without a model; advance
the breathing phase by `rate * 0.05` (sleep slows the rate and doubles the
intensity), capture the original scale once from `scale.x`, and set the y
scale from that cached original, never from the live scale. -/
def applyBreathing (s : ProcState) : ProcState :=
  if s.hasModel = false then s
  else
    { s with
      breathingPhase := s.breathingPhase
        + (if s.catState = "sleep" then 3/10 else 1) * (1/20),
      originalModelScale := some (s.originalModelScale.getD s.scaleX),
      scaleY := s.originalModelScale.getD s.scaleX
        * (1 + Real.sin (s.breathingPhase
            + (if s.catState = "sleep" then 3/10 else 1) * (1/20))
          * (if s.catState = "sleep" then 1/50 else 1/100)) }

/-- `applyTalkingBehavior(delta)`, lines 377-386: while talking and a head
bone exists, write `baseline.x + sin(time·8)·(talkingIntensity·0.08)` into
the head's x rotation. -/
def applyTalkingBehavior (s : ProcState) : ProcState :=
  if (s.isTalking && s.hasHead) = false then s
  else
    { s with
      headRot :=
        ⟨(s.baseHead.getD ⟨0, 0, 0⟩).x
           + Real.sin (s.time * 8) * (s.talkingIntensity * (2/25)),
         s.headRot.y, s.headRot.z⟩ }

/-- `update(delta)`, lines 245-253: advance `time`, restore the cached
baselines, then run the sub-effects in source order.  `applyMoodInfluences`
(lines 388-400) only forwards a speed scale to the animation manager and
touches no bone or layer state, so it contributes nothing here. -/
def update (delta : ℝ) (r : ProcDraws) (s : ProcState) : ProcState :=
  applyTalkingBehavior (applyBreathing (applyEarMotions delta r
    (applyTailMotion delta r (resetBaselines { s with time := s.time + delta }))))

/-- Replace the four bone rotations of a state (everything else equal). -/
def withRots (s : ProcState) (h t l rr : Euler3) : ProcState :=
  { s with headRot := h, tailRot := t, leftEarRot := l, rightEarRot := rr }

end

/-- The simp set that pushes every `ProcState` projection through
state-valued `ite`s, so that per-bone components of the update pipeline
compute. -/
theorem procIte {α : Type} (f : ProcState → α) (c : Prop) [Decidable c]
    (a b : ProcState) : f (if c then a else b) = if c then f a else f b :=
  apply_ite f c a b

set_option maxRecDepth 4000 in
/-- **C3** (amended).  A tick does *not* leave bone rotations unchanged in
general (see the counterexample); what holds is the non-compounding property
behind the claim's explanation: each tick first restores the cached baselines
and every sub-effect recomputes its offset from the baseline only, so —
provided every present bone has a cached baseline, as after
`cacheBaselines` — the post-tick rotation of every present bone is completely
independent of its pre-tick rotation: offsets never accumulate across
ticks. -/
theorem proceduralTick_no_compounding (delta : ℝ) (r : ProcDraws)
    (s : ProcState) (h1 t1 l1 rr1 h2 t2 l2 rr2 : Euler3)
    (hh : s.hasHead = true → s.baseHead.isSome = true)
    (ht : s.hasTail = true → s.baseTail.isSome = true)
    (hl : s.hasLeftEar = true → s.baseLeftEar.isSome = true)
    (hr : s.hasRightEar = true → s.baseRightEar.isSome = true) :
    (s.hasHead = true →
      (update delta r (withRots s h1 t1 l1 rr1)).headRot
        = (update delta r (withRots s h2 t2 l2 rr2)).headRot) ∧
    (s.hasTail = true →
      (update delta r (withRots s h1 t1 l1 rr1)).tailRot
        = (update delta r (withRots s h2 t2 l2 rr2)).tailRot) ∧
    (s.hasLeftEar = true →
      (update delta r (withRots s h1 t1 l1 rr1)).leftEarRot
        = (update delta r (withRots s h2 t2 l2 rr2)).leftEarRot) ∧
    (s.hasRightEar = true →
      (update delta r (withRots s h1 t1 l1 rr1)).rightEarRot
        = (update delta r (withRots s h2 t2 l2 rr2)).rightEarRot) := by
  refine ⟨?_, ?_, ?_, ?_⟩
  · intro hpres
    obtain ⟨b, hb⟩ := Option.isSome_iff_exists.mp (hh hpres)
    simp [update, applyTalkingBehavior, applyBreathing, applyEarMotions,
      earCuriousStep, applyTailMotion, resetBaselines, resetBone, withRots,
      tailIntensityFor, tailSpeedFor, hpres, hb,
      procIte ProcState.time,
      procIte ProcState.tailBaseIntensity,
      procIte ProcState.tailCurrentIntensity,
      procIte ProcState.tailPhase,
      procIte ProcState.tailSpeed,
      procIte ProcState.earsLeftPhase,
      procIte ProcState.earsRightPhase,
      procIte ProcState.earsTwitchProbability,
      procIte ProcState.breathingPhase,
      procIte ProcState.breathingIntensity,
      procIte ProcState.breathingRate,
      procIte ProcState.baseHead,
      procIte ProcState.baseTail,
      procIte ProcState.baseLeftEar,
      procIte ProcState.baseRightEar,
      procIte ProcState.originalModelScale,
      procIte ProcState.hasHead,
      procIte ProcState.hasTail,
      procIte ProcState.hasLeftEar,
      procIte ProcState.hasRightEar,
      procIte ProcState.hasModel,
      procIte ProcState.headRot,
      procIte ProcState.tailRot,
      procIte ProcState.leftEarRot,
      procIte ProcState.rightEarRot,
      procIte ProcState.scaleX,
      procIte ProcState.scaleY,
      procIte ProcState.mood,
      procIte ProcState.catState,
      procIte ProcState.isTalking,
      procIte ProcState.talkingIntensity]
  · intro hpres
    obtain ⟨b, hb⟩ := Option.isSome_iff_exists.mp (ht hpres)
    simp [update, applyTalkingBehavior, applyBreathing, applyEarMotions,
      earCuriousStep, applyTailMotion, resetBaselines, resetBone, withRots,
      tailIntensityFor, tailSpeedFor, hpres, hb,
      procIte ProcState.time,
      procIte ProcState.tailBaseIntensity,
      procIte ProcState.tailCurrentIntensity,
      procIte ProcState.tailPhase,
      procIte ProcState.tailSpeed,
      procIte ProcState.earsLeftPhase,
      procIte ProcState.earsRightPhase,
      procIte ProcState.earsTwitchProbability,
      procIte ProcState.breathingPhase,
      procIte ProcState.breathingIntensity,
      procIte ProcState.breathingRate,
      procIte ProcState.baseHead,
      procIte ProcState.baseTail,
      procIte ProcState.baseLeftEar,
      procIte ProcState.baseRightEar,
      procIte ProcState.originalModelScale,
      procIte ProcState.hasHead,
      procIte ProcState.hasTail,
      procIte ProcState.hasLeftEar,
      procIte ProcState.hasRightEar,
      procIte ProcState.hasModel,
      procIte ProcState.headRot,
      procIte ProcState.tailRot,
      procIte ProcState.leftEarRot,
      procIte ProcState.rightEarRot,
      procIte ProcState.scaleX,
      procIte ProcState.scaleY,
      procIte ProcState.mood,
      procIte ProcState.catState,
      procIte ProcState.isTalking,
      procIte ProcState.talkingIntensity]
  · intro hpres
    obtain ⟨b, hb⟩ := Option.isSome_iff_exists.mp (hl hpres)
    simp [update, applyTalkingBehavior, applyBreathing, applyEarMotions,
      earCuriousStep, applyTailMotion, resetBaselines, resetBone, withRots,
      tailIntensityFor, tailSpeedFor, hpres, hb,
      procIte ProcState.time,
      procIte ProcState.tailBaseIntensity,
      procIte ProcState.tailCurrentIntensity,
      procIte ProcState.tailPhase,
      procIte ProcState.tailSpeed,
      procIte ProcState.earsLeftPhase,
      procIte ProcState.earsRightPhase,
      procIte ProcState.earsTwitchProbability,
      procIte ProcState.breathingPhase,
      procIte ProcState.breathingIntensity,
      procIte ProcState.breathingRate,
      procIte ProcState.baseHead,
      procIte ProcState.baseTail,
      procIte ProcState.baseLeftEar,
      procIte ProcState.baseRightEar,
      procIte ProcState.originalModelScale,
      procIte ProcState.hasHead,
      procIte ProcState.hasTail,
      procIte ProcState.hasLeftEar,
      procIte ProcState.hasRightEar,
      procIte ProcState.hasModel,
      procIte ProcState.headRot,
      procIte ProcState.tailRot,
      procIte ProcState.leftEarRot,
      procIte ProcState.rightEarRot,
      procIte ProcState.scaleX,
      procIte ProcState.scaleY,
      procIte ProcState.mood,
      procIte ProcState.catState,
      procIte ProcState.isTalking,
      procIte ProcState.talkingIntensity]
  · intro hpres
    obtain ⟨b, hb⟩ := Option.isSome_iff_exists.mp (hr hpres)
    simp [update, applyTalkingBehavior, applyBreathing, applyEarMotions,
      earCuriousStep, applyTailMotion, resetBaselines, resetBone, withRots,
      tailIntensityFor, tailSpeedFor, hpres, hb,
      procIte ProcState.time,
      procIte ProcState.tailBaseIntensity,
      procIte ProcState.tailCurrentIntensity,
      procIte ProcState.tailPhase,
      procIte ProcState.tailSpeed,
      procIte ProcState.earsLeftPhase,
      procIte ProcState.earsRightPhase,
      procIte ProcState.earsTwitchProbability,
      procIte ProcState.breathingPhase,
      procIte ProcState.breathingIntensity,
      procIte ProcState.breathingRate,
      procIte ProcState.baseHead,
      procIte ProcState.baseTail,
      procIte ProcState.baseLeftEar,
      procIte ProcState.baseRightEar,
      procIte ProcState.originalModelScale,
      procIte ProcState.hasHead,
      procIte ProcState.hasTail,
      procIte ProcState.hasLeftEar,
      procIte ProcState.hasRightEar,
      procIte ProcState.hasModel,
      procIte ProcState.headRot,
      procIte ProcState.tailRot,
      procIte ProcState.leftEarRot,
      procIte ProcState.rightEarRot,
      procIte ProcState.scaleX,
      procIte ProcState.scaleY,
      procIte ProcState.mood,
      procIte ProcState.catState,
      procIte ProcState.isTalking,
      procIte ProcState.talkingIntensity]

noncomputable section

/-- A concrete reachable layer state: all four bones and no model, zero
rotations, neutral mood, tail phase `π/2`, the constructor's initial
parameters (lines 219-242 with this phase draw). -/
def procExampleState : ProcState where
  time := 0
  tailBaseIntensity := 1/5
  tailCurrentIntensity := 1/5
  tailPhase := Real.pi / 2
  tailSpeed := 1
  earsLeftPhase := 0
  earsRightPhase := 0
  earsTwitchProbability := 1/50
  breathingPhase := 0
  breathingIntensity := 1/100
  breathingRate := 1
  baseHead := none
  baseTail := none
  baseLeftEar := none
  baseRightEar := none
  originalModelScale := none
  hasHead := true
  hasTail := true
  hasLeftEar := true
  hasRightEar := true
  hasModel := false
  headRot := ⟨0, 0, 0⟩
  tailRot := ⟨0, 0, 0⟩
  leftEarRot := ⟨0, 0, 0⟩
  rightEarRot := ⟨0, 0, 0⟩
  scaleX := 1
  scaleY := 1
  mood := "neutral"
  catState := "idle"
  isTalking := false
  talkingIntensity := 0

/-- Draws that trigger neither a tail flick nor an ear twitch. -/
def procNoTriggerDraws : ProcDraws := ⟨1, 1, 0⟩

end

/-- **C3** counterexample to the claim as stated.  Right after
`cacheBaselines`, one `update` tick (here with `delta = 0` and no random
micro-gesture triggered) does *not* leave the tail rotation unchanged: the
tail sub-effect writes `baseline.y + sin(phase)·intensity` into the tail's y
rotation, which at phase `π/2` and intensity `0.2` moves the tail from its
cached baseline `0` to `0.2`. -/
theorem proceduralTick_unchanged_counterexample :
    (cacheBaselines procExampleState).tailRot.y = 0 ∧
    (update 0 procNoTriggerDraws (cacheBaselines procExampleState)).tailRot.y
      = 1/5 ∧
    (update 0 procNoTriggerDraws (cacheBaselines procExampleState)).tailRot.y
      ≠ (cacheBaselines procExampleState).tailRot.y := by
  have hf : ¬ ((1 : ℝ) < 1/200) := by norm_num
  have htw : ¬ ((1 : ℝ) < 1/50) := by norm_num
  refine ⟨rfl, ?_, ?_⟩ <;>
    · simp [update, applyTalkingBehavior, applyBreathing, applyEarMotions,
        earCuriousStep, applyTailMotion, resetBaselines, resetBone,
        cacheBaselines, procExampleState, procNoTriggerDraws, tailIntensityFor,
        tailSpeedFor, lerp, hf, htw, Real.sin_pi_div_two]
      norm_num

/-- Witness for `proceduralTick_no_compounding`: with baselines cached, two
ticks from states differing only in their pre-tick tail rotations produce
identical tail rotations. -/
theorem proceduralTick_no_compounding_witness :
    (update 0 procNoTriggerDraws
        (withRots (cacheBaselines procExampleState)
          ⟨1, 0, 0⟩ ⟨2, 0, 0⟩ ⟨3, 0, 0⟩ ⟨4, 0, 0⟩)).tailRot
      = (update 0 procNoTriggerDraws
        (withRots (cacheBaselines procExampleState)
          ⟨0, 1, 0⟩ ⟨0, 2, 0⟩ ⟨0, 3, 0⟩ ⟨0, 4, 0⟩)).tailRot :=
  (proceduralTick_no_compounding 0 procNoTriggerDraws
      (cacheBaselines procExampleState) ⟨1, 0, 0⟩ ⟨2, 0, 0⟩ ⟨3, 0, 0⟩ ⟨4, 0, 0⟩
      ⟨0, 1, 0⟩ ⟨0, 2, 0⟩ ⟨0, 3, 0⟩ ⟨0, 4, 0⟩
      (fun _ => rfl) (fun _ => rfl) (fun _ => rfl) (fun _ => rfl)).2.1 rfl
